import Mathlib

/-!
Verification of the packet-queue, clock and synchronization core of
src/ffplayer.c, shallowly embedded in Lean 4.  Machine integers are modelled
as Int (no overflow is relevant to the claims), C doubles as exact reals,
with NaN represented by the none case of Option Real.
-/

set_option maxHeartbeats 1000000

namespace FFPlayer

/-! ### Constants from ffplayer.c -/

/-- SDL2's SDL_MIX_MAXVOLUME. -/
def SDL_MIX_MAXVOLUME : Int := 128

/-- AV_NOSYNC_THRESHOLD (seconds): no correction is done above this. -/
noncomputable def AV_NOSYNC_THRESHOLD : ℝ := 10

/-- AV_SYNC_THRESHOLD_MIN (seconds). -/
noncomputable def AV_SYNC_THRESHOLD_MIN : ℝ := 0.04

/-- AV_SYNC_THRESHOLD_MAX (seconds). -/
noncomputable def AV_SYNC_THRESHOLD_MAX : ℝ := 0.1

/-- AV_SYNC_FRAMEDUP_THRESHOLD (seconds). -/
noncomputable def AV_SYNC_FRAMEDUP_THRESHOLD : ℝ := 0.1

/-- AUDIO_DIFF_AVG_NB: EWMA warm-up count. -/
def AUDIO_DIFF_AVG_NB : Int := 20

/-- SAMPLE_CORRECTION_PERCENT_MAX: clamp for audio sample compensation. -/
def SAMPLE_CORRECTION_PERCENT_MAX : Int := 10

/-- SDL_VOLUME_STEP: the 0.75 dB volume step. -/
noncomputable def SDL_VOLUME_STEP : ℝ := 0.75

/-- AV_TIME_BASE. -/
def AV_TIME_BASE : Int := 1000000

/-! ### PacketQueue (ffplayer.c lines 350-552)

A packet is modelled by the fields the queue accounting reads; the process
wide flush sentinel (compared by address against flush_pkt in C) is modelled
by the tag isFlush. -/

/-- An AVPacket as the packet queue sees it. -/
structure PQPacket where
  isFlush : Bool
  size : Int
  duration : Int
  stream_index : Int
deriving DecidableEq

/-- The flush sentinel (the process-wide flush_pkt). -/
def flush_pkt : PQPacket := { isFlush := true, size := 0, duration := 0, stream_index := 0 }

/-- One MyAVPacketList node: a packet with its stamped serial. -/
structure MyAVPacketList where
  pkt : PQPacket
  serial : Int
deriving DecidableEq

/-- The per-entry overhead sizeof(MyAVPacketList) billed to q->size (a
platform constant; its exact value does not matter to any claim). -/
def sizeof_MyAVPacketList : Int := 24

/-- PacketQueue state: the linked list first_pkt..last_pkt as a Lean list,
plus the counters.  The mutex and condition variable have no state visible
to the claims. -/
structure PacketQueue where
  pkts : List MyAVPacketList
  nb_packets : Int
  size : Int
  duration : Int
  abort_request : Bool
  serial : Int
deriving DecidableEq

/-- packet_queue_put_private: fail (-1) when aborted; a flush sentinel
increments the serial first; the node is stamped with the (possibly just
incremented) current serial and appended; counters are billed. -/
def packet_queue_put_private (q : PacketQueue) (pkt : PQPacket) : Int × PacketQueue :=
  if q.abort_request then (-1, q)
  else
    let serial2 : Int := if pkt.isFlush then q.serial + 1 else q.serial
    let entry : MyAVPacketList := { pkt := pkt, serial := serial2 }
    (0, { q with
           pkts := q.pkts ++ [entry],
           nb_packets := q.nb_packets + 1,
           size := q.size + pkt.size + sizeof_MyAVPacketList,
           duration := q.duration + pkt.duration,
           serial := serial2 })

/-- packet_queue_put: lock, put_private, unlock. -/
def packet_queue_put (q : PacketQueue) (pkt : PQPacket) : Int × PacketQueue :=
  packet_queue_put_private q pkt

/-- packet_queue_put_nullpacket: an empty packet bound to a stream index. -/
def packet_queue_put_nullpacket (q : PacketQueue) (stream_index : Int) : Int × PacketQueue :=
  packet_queue_put q { isFlush := false, size := 0, duration := 0, stream_index := stream_index }

/-- packet_queue_init: memset to zero, then abort_request = 1. -/
def packet_queue_init : PacketQueue :=
  { pkts := [], nb_packets := 0, size := 0, duration := 0,
    abort_request := true, serial := 0 }

/-- packet_queue_flush: release every packet and reset the counters; the
serial is NOT changed. -/
def packet_queue_flush (q : PacketQueue) : PacketQueue :=
  { q with pkts := [], nb_packets := 0, size := 0, duration := 0 }

/-- packet_queue_abort: raise the abort flag. -/
def packet_queue_abort (q : PacketQueue) : PacketQueue :=
  { q with abort_request := true }

/-- packet_queue_start: clear abort, then put the flush sentinel. -/
def packet_queue_start (q : PacketQueue) : PacketQueue :=
  (packet_queue_put_private { q with abort_request := false } flush_pkt).2

/-- Result of packet_queue_get in blocking mode: aborted (< 0), would-block
(queue empty, the C code waits on the condition), or a dequeued packet with
its stamped serial and the remaining queue. -/
inductive PQGetResult where
  | aborted
  | empty
  | got (pkt : PQPacket) (serial : Int) (q2 : PacketQueue)

/-- packet_queue_get: abort wins; otherwise pop the head, un-bill the
counters and report the head's stamped serial. -/
def packet_queue_get (q : PacketQueue) : PQGetResult :=
  if q.abort_request then .aborted
  else
    match q.pkts with
    | [] => .empty
    | e :: rest =>
        .got e.pkt e.serial
          { q with
             pkts := rest,
             nb_packets := q.nb_packets - 1,
             size := q.size - (e.pkt.size + sizeof_MyAVPacketList),
             duration := q.duration - e.pkt.duration }

/-! ### Traces of queue operations, for the serial invariant (C1) -/

/-- One queue operation of a trace: a put (the packet may be the flush
sentinel), a blocking get, or packet_queue_flush. -/
inductive PQOp where
  | put (pkt : PQPacket)
  | get
  | flush

/-- The queue after one operation. -/
def pq_qstep (q : PacketQueue) : PQOp → PacketQueue
  | .put p => (packet_queue_put q p).2
  | .get =>
      match packet_queue_get q with
      | .got _ _ q2 => q2
      | _ => q
  | .flush => packet_queue_flush q

/-- The queue after a list of operations. -/
def pq_qrun (q : PacketQueue) : List PQOp → PacketQueue
  | [] => q
  | op :: ops => pq_qrun (pq_qstep q op) ops

/-- The serials of the packets the gets of a trace deliver, in order. -/
def deliveredOf (q : PacketQueue) : List PQOp → List Int
  | [] => []
  | .put p :: ops => deliveredOf (pq_qstep q (.put p)) ops
  | .flush :: ops => deliveredOf (pq_qstep q .flush) ops
  | .get :: ops =>
      match packet_queue_get q with
      | .got _ ser q2 => ser :: deliveredOf q2 ops
      | _ => deliveredOf q ops

/-- The serials the successful puts of a trace stamp onto their packets, in
order.  A put stamps exactly the queue serial current after the put (equal
to the serial current at enqueue time for a normal packet, and to its
increment for the flush sentinel). -/
def stampsOf (q : PacketQueue) : List PQOp → List Int
  | [] => []
  | .put p :: ops =>
      let r := packet_queue_put q p
      (if r.1 = 0 then [r.2.serial] else []) ++ stampsOf r.2 ops
  | .get :: ops => stampsOf (pq_qstep q .get) ops
  | .flush :: ops => stampsOf (pq_qstep q .flush) ops

/-- How many flush sentinels a trace puts. -/
def numFlushPuts : List PQOp → Int
  | [] => 0
  | .put p :: ops => (if p.isFlush then 1 else 0) + numFlushPuts ops
  | .get :: ops => numFlushPuts ops
  | .flush :: ops => numFlushPuts ops

/-! ### Clock (ffplayer.c lines 1493-1549)

A C double that may be NaN is Option Real: none is NaN.  The wall clock
av_gettime_relative()/1e6 is a real parameter time; it is never NaN. -/

/-- NaN-propagating addition of a possibly-NaN double and a real. -/
def fdAdd (x : Option ℝ) (r : ℝ) : Option ℝ := x.map (fun v => v + r)

/-- NaN-propagating subtraction of a real from a possibly-NaN double. -/
def fdSub (x : Option ℝ) (r : ℝ) : Option ℝ := x.map (fun v => v - r)

/-- The Clock struct.  The C field queue_serial is a pointer to the producer
PacketQueue serial; its current value is passed to the operations that
dereference it. -/
structure Clock where
  pts : Option ℝ
  pts_drift : Option ℝ
  last_updated : ℝ
  speed : ℝ
  paused : Bool
  serial : Int

/-- get_clock: NaN when the dereferenced queue serial differs from the
clock serial; pts when paused; otherwise
pts_drift + time - (time - last_updated) * (1 - speed). -/
noncomputable def get_clock (c : Clock) (queue_serial : Int) (time : ℝ) : Option ℝ :=
  if queue_serial ≠ c.serial then none
  else if c.paused then c.pts
  else fdSub (fdAdd c.pts_drift time) ((time - c.last_updated) * (1 - c.speed))

/-- set_clock_at: stamp pts, last_updated and pts_drift = pts - time. -/
noncomputable def set_clock_at (c : Clock) (pts : Option ℝ) (serial : Int) (time : ℝ) : Clock :=
  { c with pts := pts, last_updated := time, pts_drift := fdSub pts time, serial := serial }

/-- set_clock: set_clock_at at the current wall clock reading. -/
noncomputable def set_clock (c : Clock) (pts : Option ℝ) (serial : Int) (time : ℝ) : Clock :=
  set_clock_at c pts serial time

/-- set_clock_speed: re-stamp at the current value read at the old speed,
then switch the speed. -/
noncomputable def set_clock_speed (c : Clock) (speed : ℝ) (queue_serial : Int) (time : ℝ) :
    Clock :=
  let c2 := set_clock c (get_clock c queue_serial time) c.serial time
  { c2 with speed := speed }

/-- init_clock: speed 1, unpaused, pts NaN, serial -1. -/
noncomputable def init_clock (time : ℝ) : Clock :=
  set_clock { pts := none, pts_drift := none, last_updated := 0, speed := 1,
              paused := false, serial := -1 } none (-1) time

/-- sync_clock_to_slave: copy the slave value and serial when the slave
reading is not NaN and (this reading is NaN or they differ by more than
AV_NOSYNC_THRESHOLD). -/
noncomputable def sync_clock_to_slave (c slave : Clock) (qc qs : Int) (time : ℝ) : Clock :=
  let clock := get_clock c qc time
  let slave_clock := get_clock slave qs time
  match slave_clock with
  | none => c
  | some s =>
      match clock with
      | none => set_clock c (some s) slave.serial time
      | some v =>
          if |v - s| > AV_NOSYNC_THRESHOLD then set_clock c (some s) slave.serial time else c

/-! ### Master clock selection (ffplayer.c lines 1551-1598) -/

/-- The av_sync_type values. -/
inductive AVSyncType where
  | audioMaster
  | videoMaster
  | externalClock
deriving DecidableEq

/-- The inputs get_master_sync_type reads: the configured sync type and
whether is->video_st and is->audio_st are non-null. -/
structure SyncState where
  av_sync_type : AVSyncType
  video_st : Bool
  audio_st : Bool
deriving DecidableEq

/-- get_master_sync_type: VIDEO configured falls back to AUDIO when no
video stream; AUDIO configured falls back to EXTERNAL when no audio
stream; anything else is EXTERNAL. -/
def get_master_sync_type (s : SyncState) : AVSyncType :=
  if s.av_sync_type = AVSyncType.videoMaster then
    if s.video_st then AVSyncType.videoMaster else AVSyncType.audioMaster
  else if s.av_sync_type = AVSyncType.audioMaster then
    if s.audio_st then AVSyncType.audioMaster else AVSyncType.externalClock
  else AVSyncType.externalClock

/-- The selection the claim describes, written from the spec sentence: if
configured AUDIO and audio present then AUDIO; else if configured VIDEO and
video present then VIDEO; else EXTERNAL. -/
def claimed_master_sync_type (s : SyncState) : AVSyncType :=
  if s.av_sync_type = AVSyncType.audioMaster ∧ s.audio_st then AVSyncType.audioMaster
  else if s.av_sync_type = AVSyncType.videoMaster ∧ s.video_st then AVSyncType.videoMaster
  else AVSyncType.externalClock

/-! ### Video target delay (ffplayer.c lines 1689-1725) -/

/-- compute_target_delay: when video is not the master, correct the nominal
delay by the clock difference diff = get_clock(vidclk) - get_master_clock
(a possibly-NaN double, passed in), within the band
[AV_SYNC_THRESHOLD_MIN, AV_SYNC_THRESHOLD_MAX] and only when
|diff| < max_frame_duration. -/
noncomputable def compute_target_delay (delay : ℝ) (ss : SyncState) (diff : Option ℝ)
    (max_frame_duration : ℝ) : ℝ :=
  if get_master_sync_type ss ≠ AVSyncType.videoMaster then
    let sync_threshold := max AV_SYNC_THRESHOLD_MIN (min AV_SYNC_THRESHOLD_MAX delay)
    match diff with
    | none => delay
    | some d =>
        if |d| < max_frame_duration then
          if d ≤ -sync_threshold then max 0 (delay + d)
          else if d ≥ sync_threshold ∧ delay > AV_SYNC_FRAMEDUP_THRESHOLD then delay + d
          else if d ≥ sync_threshold then 2 * delay
          else delay
        else delay
  else delay

/-- The clip(x, lo, hi) of the spec, on reals. -/
noncomputable def clipR (x lo hi : ℝ) : ℝ := max lo (min hi x)

/-- The target-delay computation the claim describes, written from the spec
sentences: threshold = clip(delay, 0.04, 0.1); delay unchanged when
|diff| > max_frame_duration; max(0, delay + diff) when diff ≤ -threshold;
delay + diff when diff ≥ threshold and delay > 0.1; 2 * delay when
diff ≥ threshold and delay ≤ 0.1; unchanged otherwise. -/
noncomputable def claimed_target_delay (delay d max_frame_duration : ℝ) : ℝ :=
  let threshold := clipR delay 0.04 0.1
  if |d| > max_frame_duration then delay
  else if d ≤ -threshold then max 0 (delay + d)
  else if d ≥ threshold ∧ delay > 0.1 then delay + d
  else if d ≥ threshold then 2 * delay
  else delay

/-- The target-delay computation as amended: the corrections apply only
when |diff| is strictly below max_frame_duration, so the delay is also
unchanged at |diff| = max_frame_duration. -/
noncomputable def amended_target_delay (delay d max_frame_duration : ℝ) : ℝ :=
  let threshold := clipR delay 0.04 0.1
  if |d| ≥ max_frame_duration then delay
  else if d ≤ -threshold then max 0 (delay + d)
  else if d ≥ threshold ∧ delay > 0.1 then delay + d
  else if d ≥ threshold then 2 * delay
  else delay

/-! ### Audio sample compensation (ffplayer.c lines 2200-2250) -/

/-- av_clip on C ints. -/
def av_clip (x lo hi : Int) : Int := if x < lo then lo else if x > hi then hi else x

/-- A C cast of a double to int: truncation toward zero. -/
noncomputable def ctrunc (x : ℝ) : Int := if 0 ≤ x then ⌊x⌋ else ⌈x⌉

/-- The fields of VideoState that synchronize_audio reads and writes. -/
structure AudioSyncState where
  audio_diff_cum : ℝ
  audio_diff_avg_coef : ℝ
  audio_diff_avg_count : Int
  audio_diff_threshold : ℝ
  audio_src_freq : Int

/-- The EWMA coefficient exp(log(0.01) / AUDIO_DIFF_AVG_NB) the program
installs at stream open. -/
noncomputable def audio_diff_avg_coef_init : ℝ := Real.exp (Real.log 0.01 / 20)

/-- synchronize_audio: returns the wanted sample count and the updated
state.  diff = get_clock(audclk) - get_master_clock (possibly NaN). -/
noncomputable def synchronize_audio (st : AudioSyncState) (ss : SyncState) (diff : Option ℝ)
    (nb_samples : Int) : Int × AudioSyncState :=
  if get_master_sync_type ss ≠ AVSyncType.audioMaster then
    match diff with
    | some d =>
        if |d| < AV_NOSYNC_THRESHOLD then
          let cum := d + st.audio_diff_avg_coef * st.audio_diff_cum
          if st.audio_diff_avg_count < AUDIO_DIFF_AVG_NB then
            (nb_samples, { st with audio_diff_cum := cum,
                                   audio_diff_avg_count := st.audio_diff_avg_count + 1 })
          else
            let avg_diff := cum * (1 - st.audio_diff_avg_coef)
            if |avg_diff| ≥ st.audio_diff_threshold then
              let wanted := nb_samples + ctrunc (d * (st.audio_src_freq : ℝ))
              let minS := Int.tdiv (nb_samples * (100 - SAMPLE_CORRECTION_PERCENT_MAX)) 100
              let maxS := Int.tdiv (nb_samples * (100 + SAMPLE_CORRECTION_PERCENT_MAX)) 100
              (av_clip wanted minS maxS, { st with audio_diff_cum := cum })
            else
              (nb_samples, { st with audio_diff_cum := cum })
        else
          (nb_samples, { st with audio_diff_cum := 0, audio_diff_avg_count := 0 })
    | none =>
        (nb_samples, { st with audio_diff_cum := 0, audio_diff_avg_count := 0 })
  else (nb_samples, st)

/-- The target sample count the claim describes, written from the spec
sentence: clip(n + round(diff * src_rate), 0.9 n, 1.1 n), over reals. -/
noncomputable def claimed_wanted_samples (d : ℝ) (freq n : Int) : ℝ :=
  clipR ((n : ℝ) + (round (d * (freq : ℝ)) : ℤ)) (0.9 * (n : ℝ)) (1.1 * (n : ℝ))

/-! ### Volume (ffplayer.c lines 1671-1676) -/

/-- The intermediate new_volume of update_volume: current volume converted
to dB (or -1000 for volume 0), stepped by sign * step dB, converted back
and rounded to the nearest int by lrint. -/
noncomputable def update_volume_new (audio_volume sign : Int) (step : ℝ) : Int :=
  let volume_level : ℝ :=
    if audio_volume ≠ 0 then
      20 * Real.log ((audio_volume : ℝ) / (SDL_MIX_MAXVOLUME : ℝ)) / Real.log 10
    else -1000
  round ((SDL_MIX_MAXVOLUME : ℝ) * (10 : ℝ) ^ ((volume_level + (sign : ℝ) * step) / 20))

/-- update_volume: when the stepped volume rounds back to the current one,
nudge by sign instead; clip to [0, SDL_MIX_MAXVOLUME]. -/
noncomputable def update_volume (audio_volume sign : Int) (step : ℝ) : Int :=
  let new_volume := update_volume_new audio_volume sign step
  av_clip (if audio_volume = new_volume then audio_volume + sign else new_volume)
    0 SDL_MIX_MAXVOLUME

/-! ### Reader seek handling (ffplayer.c lines 3088-3143)

The fields of VideoState that read_thread_loop_handle_seek,
stream_toggle_pause and step_to_next_frame touch.  The container seek
avformat_seek_file is external; its result is a parameter. -/

/-- The reader-side VideoState slice. -/
structure ReaderState where
  audio_stream : Int
  subtitle_stream : Int
  video_stream : Int
  audioq : PacketQueue
  subtitleq : PacketQueue
  videoq : PacketQueue
  audclk : Clock
  vidclk : Clock
  extclk : Clock
  frame_timer : ℝ
  read_pause_return : Int
  seek_req : Bool
  seek_pos : Int
  seek_rel : Int
  seek_flags_byte : Bool
  queue_attachments_req : Bool
  eof : Bool
  paused : Bool
  step : Int

/-- The AVERROR(ENOSYS) value av_read_pause returns when unsupported
(negative errno encoding; the exact value is irrelevant, only the
comparison in stream_toggle_pause uses it). -/
def AVERROR_ENOSYS : Int := -38

/-- stream_toggle_pause at wall time t: when leaving pause, catch
frame_timer up, possibly unpause the video clock and re-stamp it; always
re-stamp the external clock; toggle all paused flags. -/
noncomputable def stream_toggle_pause (s : ReaderState) (t : ℝ) : ReaderState :=
  let s1 :=
    if s.paused then
      let ft := s.frame_timer + t - s.vidclk.last_updated
      let vc0 := if s.read_pause_return ≠ AVERROR_ENOSYS then
                   { s.vidclk with paused := false } else s.vidclk
      let vc := set_clock vc0 (get_clock vc0 s.videoq.serial t) vc0.serial t
      { s with frame_timer := ft, vidclk := vc }
    else s
  let ec := set_clock s1.extclk (get_clock s1.extclk s1.extclk.serial t) s1.extclk.serial t
  let p := !s1.paused
  { s1 with extclk := { ec with paused := p },
            audclk := { s1.audclk with paused := p },
            vidclk := { s1.vidclk with paused := p },
            paused := p }

/-- step_to_next_frame: unpause if paused, then request one frame step. -/
noncomputable def step_to_next_frame (s : ReaderState) (t : ℝ) : ReaderState :=
  let s1 := if s.paused then stream_toggle_pause s t else s
  { s1 with step := 1 }

/-- The body of the seek handling in the reader loop, at wall time t, with
seek_ret the result avformat_seek_file returned.  On failure only a log is
emitted; on success every active queue is flushed and handed the flush
sentinel and the external clock is reset.  Either way the request flags are
consumed and, when paused, a frame step is triggered. -/
noncomputable def read_thread_loop_handle_seek (s : ReaderState) (seek_ret : Int) (t : ℝ) :
    ReaderState :=
  if s.seek_req then
    let s1 :=
      if seek_ret < 0 then s
      else
        let sa := if s.audio_stream ≥ 0 then
                    { s with audioq :=
                        (packet_queue_put (packet_queue_flush s.audioq) flush_pkt).2 }
                  else s
        let sb := if sa.subtitle_stream ≥ 0 then
                    { sa with subtitleq :=
                        (packet_queue_put (packet_queue_flush sa.subtitleq) flush_pkt).2 }
                  else sa
        let sc := if sb.video_stream ≥ 0 then
                    { sb with videoq :=
                        (packet_queue_put (packet_queue_flush sb.videoq) flush_pkt).2 }
                  else sb
        if sc.seek_flags_byte then
          { sc with extclk := set_clock sc.extclk none 0 t }
        else
          { sc with extclk :=
              set_clock sc.extclk (some ((sc.seek_pos : ℝ) / (AV_TIME_BASE : ℝ))) 0 t }
    let s2 := { s1 with seek_req := false, queue_attachments_req := true, eof := false }
    if s2.paused then step_to_next_frame s2 t else s2
  else s

/-! ### Spec-side definitions for the clock claims -/

/-- The reading the C2 claim describes, written from the spec sentence: NaN
when the queue serial has advanced PAST the clock serial, pts when paused,
else pts_drift + now - (now - last_updated) * (1 - speed). -/
noncomputable def claimed_get_clock (c : Clock) (queue_serial : Int) (time : ℝ) : Option ℝ :=
  if queue_serial > c.serial then none
  else if c.paused then c.pts
  else fdSub (fdAdd c.pts_drift time) ((time - c.last_updated) * (1 - c.speed))

/-- The reading as amended: NaN whenever the queue serial DIFFERS from the
clock serial; the formula is spelled as in the spec, drift corrected first
and the wall time added last. -/
noncomputable def amended_get_clock (c : Clock) (queue_serial : Int) (time : ℝ) : Option ℝ :=
  if queue_serial ≠ c.serial then none
  else if c.paused then c.pts
  else fdAdd (fdSub c.pts_drift ((time - c.last_updated) * (1 - c.speed))) time

/-- A concrete clock whose serial is ahead of its queue serial: its basis
epoch is newer than the queue's counter, not older. -/
noncomputable def cex_clock : Clock :=
  { pts := some 0, pts_drift := some 0, last_updated := 0, speed := 1,
    paused := false, serial := 1 }

/-- The copy condition the C6 claim describes, written from the spec
sentence: copy iff the slave is valid and the two readings differ by more
than 10 s (a NaN reading of this clock satisfies no comparison). -/
noncomputable def claimed_sync_to_slave (c slave : Clock) (qc qs : Int) (time : ℝ) : Clock :=
  match get_clock c qc time, get_clock slave qs time with
  | some v, some s =>
      if |v - s| > AV_NOSYNC_THRESHOLD then set_clock c (some s) slave.serial time else c
  | _, _ => c

/-- A slave clock that reads 5 s, valid in epoch 3. -/
noncomputable def cex_sync_slave : Clock :=
  { pts := some 5, pts_drift := some 5, last_updated := 0, speed := 1,
    paused := true, serial := 3 }

/-! ### C9 -/

/-- C9: a freshly initialized PacketQueue is aborted, every put on it fails
with a negative result and enqueues nothing, and packet_queue_start clears
the abort flag and enqueues the flush sentinel, raising the serial from 0
to 1 (the sentinel itself being stamped 1). -/
theorem packet_queue_init_aborted_until_start :
    packet_queue_init.abort_request = true ∧
    packet_queue_init.serial = 0 ∧
    (∀ p : PQPacket, (packet_queue_put packet_queue_init p).1 < 0 ∧
        (packet_queue_put packet_queue_init p).2 = packet_queue_init) ∧
    (packet_queue_start packet_queue_init).abort_request = false ∧
    (packet_queue_start packet_queue_init).serial = 1 ∧
    (packet_queue_start packet_queue_init).pkts = [{ pkt := flush_pkt, serial := 1 }] := by
  refine ⟨rfl, rfl, fun p => ⟨?_, rfl⟩, by decide, by decide, by decide⟩
  show (-1 : Int) < 0
  decide

/-! ### C3 -/

/-- C3 counterexample: with sync type VIDEO configured and no video stream,
the code selects AUDIO as master while the claim selects EXTERNAL. -/
theorem get_master_sync_type_claim_cex :
    get_master_sync_type
        { av_sync_type := AVSyncType.videoMaster, video_st := false, audio_st := false } ≠
      claimed_master_sync_type
        { av_sync_type := AVSyncType.videoMaster, video_st := false, audio_st := false } := by
  decide

/-- C3 (amended): master selection, for every combination of configured
sync type and stream presence: configured VIDEO selects VIDEO when a video
stream is present and otherwise falls back to AUDIO (even without an audio
stream); configured AUDIO selects AUDIO when an audio stream is present and
otherwise EXTERNAL; otherwise EXTERNAL. -/
theorem get_master_sync_type_spec (s : SyncState) :
    get_master_sync_type s =
      (if s.av_sync_type = AVSyncType.audioMaster then
         (if s.audio_st then AVSyncType.audioMaster else AVSyncType.externalClock)
       else if s.av_sync_type = AVSyncType.videoMaster then
         (if s.video_st then AVSyncType.videoMaster else AVSyncType.audioMaster)
       else AVSyncType.externalClock) := by
  obtain ⟨t, v, a⟩ := s
  cases t <;> cases v <;> cases a <;> rfl

/-! ### C7 -/

/-- C7: clock continuity across a speed change: reading the clock right
after set_clock_speed, at the same wall-clock instant and against the same
queue serial, returns exactly the value it returned just before (so in
particular within 1 microsecond), for every clock, speed and epoch. -/
theorem set_clock_speed_continuous (c : Clock) (speed : ℝ) (qs : Int) (t : ℝ) :
    get_clock (set_clock_speed c speed qs t) qs t = get_clock c qs t := by
  by_cases h : qs = c.serial
  · by_cases hp : c.paused
    · simp [set_clock_speed, set_clock, set_clock_at, get_clock, h, hp]
    · cases hd : c.pts_drift with
      | none =>
          simp [set_clock_speed, set_clock, set_clock_at, get_clock, fdAdd, fdSub, h, hp, hd]
      | some v =>
          simp [set_clock_speed, set_clock, set_clock_at, get_clock, fdAdd, fdSub, h, hp, hd]
  · simp [set_clock_speed, set_clock, set_clock_at, get_clock, h]

/-! ### C2 -/

/-- C2 counterexample: a clock whose serial is AHEAD of the queue serial
(the queue has not advanced past it).  The code returns NaN because the
serials differ; the claim, reading NaN only when the queue serial has
advanced past the clock serial, falls through to the extrapolation formula
and returns a number. -/
theorem get_clock_claim_cex :
    get_clock cex_clock 0 0 ≠ claimed_get_clock cex_clock 0 0 := by
  norm_num [get_clock, claimed_get_clock, cex_clock, fdAdd, fdSub]
  intro h
  exact Option.noConfusion h

/-- C2 (amended): get_clock returns NaN whenever the queue serial DIFFERS
from the clock serial (not only when it has advanced past it); otherwise it
returns pts when paused and pts_drift + now - (now - last_updated) *
(1 - speed) when running, for every clock, epoch and instant. -/
theorem get_clock_spec (c : Clock) (qs : Int) (t : ℝ) :
    get_clock c qs t = amended_get_clock c qs t := by
  by_cases h : qs ≠ c.serial
  · simp [get_clock, amended_get_clock, h]
  · by_cases hp : c.paused
    · simp [get_clock, amended_get_clock, h, hp]
    · cases hd : c.pts_drift with
      | none => simp [get_clock, amended_get_clock, fdAdd, fdSub, h, hp, hd]
      | some v =>
          simp [get_clock, amended_get_clock, fdAdd, fdSub, h, hp, hd]
          ring

/-! ### C6 -/

/-- C6 counterexample: this clock reads NaN (its serial 1 is not the queue
serial 0) and the slave reads 5 s validly.  The claimed condition
|this - slave| > 10 s fails (a NaN comparison is false), so the claim keeps
the clock unchanged; the code copies the slave because this clock is
invalid, changing the serial from 1 to 3. -/
theorem sync_clock_to_slave_claim_cex :
    sync_clock_to_slave cex_clock cex_sync_slave 0 3 0 ≠
      claimed_sync_to_slave cex_clock cex_sync_slave 0 3 0 := by
  intro h
  have h2 := congrArg Clock.serial h
  norm_num [sync_clock_to_slave, claimed_sync_to_slave, get_clock, set_clock, set_clock_at,
    cex_clock, cex_sync_slave] at h2

/-- C6 (amended): sync_clock_to_slave copies the slave value and serial
into the clock iff the slave reading is valid AND (this clock's reading is
NaN OR the two readings differ by more than 10 s); in every other case the
clock is unchanged. -/
theorem sync_clock_to_slave_spec (c slave : Clock) (qc qs : Int) (t : ℝ) :
    (get_clock slave qs t = none → sync_clock_to_slave c slave qc qs t = c) ∧
    (∀ s : ℝ, get_clock slave qs t = some s →
      (get_clock c qc t = none →
          sync_clock_to_slave c slave qc qs t = set_clock c (some s) slave.serial t) ∧
      (∀ v : ℝ, get_clock c qc t = some v →
        (|v - s| > AV_NOSYNC_THRESHOLD →
            sync_clock_to_slave c slave qc qs t = set_clock c (some s) slave.serial t) ∧
        (¬|v - s| > AV_NOSYNC_THRESHOLD → sync_clock_to_slave c slave qc qs t = c))) := by
  refine ⟨fun hn => ?_, fun s hs => ⟨fun hcn => ?_, fun v hv => ⟨fun hgt => ?_, fun hle => ?_⟩⟩⟩
  · simp [sync_clock_to_slave, hn]
  · simp [sync_clock_to_slave, hs, hcn]
  · simp [sync_clock_to_slave, hs, hv, hgt]
  · simp [sync_clock_to_slave, hs, hv, hle]

/-! ### C4 -/

/-- C4 counterexample: delay 0.05, max_frame_duration 1 and diff -1.  Here
|diff| equals max_frame_duration: the code applies no correction (it
requires |diff| strictly below max_frame_duration) and returns 0.05, while
the claim, whose discontinuity case requires |diff| strictly above
max_frame_duration, falls into the diff ≤ -threshold case and returns
max(0, 0.05 - 1) = 0. -/
theorem compute_target_delay_claim_cex :
    compute_target_delay 0.05
        { av_sync_type := AVSyncType.audioMaster, video_st := false, audio_st := true }
        (some (-1)) 1 ≠
      claimed_target_delay 0.05 (-1) 1 := by
  have hcode : compute_target_delay 0.05
      { av_sync_type := AVSyncType.audioMaster, video_st := false, audio_st := true }
      (some (-1)) 1 = 0.05 := by
    have hm : get_master_sync_type
        { av_sync_type := AVSyncType.audioMaster, video_st := false, audio_st := true } ≠
        AVSyncType.videoMaster := by decide
    simp only [compute_target_delay, if_pos hm]
    norm_num
  have hthr : clipR (0.05 : ℝ) 0.04 0.1 = 0.05 := by
    unfold clipR
    rw [min_eq_right (by norm_num), max_eq_right (by norm_num)]
  have hclaim : claimed_target_delay 0.05 (-1) 1 = 0 := by
    simp only [claimed_target_delay, hthr]
    rw [if_neg (by norm_num), if_pos (by norm_num), max_eq_left (by norm_num)]
  rw [hcode, hclaim]
  norm_num

/-- C4 (amended): when video is not the master and diff is not NaN, with
threshold = clip(delay, 0.04, 0.1): the delay is unchanged whenever
|diff| ≥ max_frame_duration (including equality); below that, it becomes
max(0, delay + diff) when diff ≤ -threshold, delay + diff when
diff ≥ threshold and delay > 0.1, twice the delay when diff ≥ threshold and
delay ≤ 0.1, and is unchanged otherwise. -/
theorem compute_target_delay_spec (delay d mfd : ℝ) (ss : SyncState)
    (h : get_master_sync_type ss ≠ AVSyncType.videoMaster) :
    compute_target_delay delay ss (some d) mfd = amended_target_delay delay d mfd := by
  simp only [compute_target_delay, amended_target_delay, clipR, AV_SYNC_THRESHOLD_MIN,
    AV_SYNC_THRESHOLD_MAX, AV_SYNC_FRAMEDUP_THRESHOLD, if_pos h]
  by_cases hlt : |d| < mfd
  · rw [if_pos hlt, if_neg (show ¬|d| ≥ mfd from not_le.mpr hlt)]
  · rw [if_neg hlt, if_pos (show |d| ≥ mfd from not_lt.mp hlt)]

/-- C4 witness for the amended theorem at a concrete input. -/
theorem compute_target_delay_spec_w :
    get_master_sync_type
        { av_sync_type := AVSyncType.audioMaster, video_st := false, audio_st := true } ≠
        AVSyncType.videoMaster ∧
    compute_target_delay 0.05
        { av_sync_type := AVSyncType.audioMaster, video_st := false, audio_st := true }
        (some 0.01) 10 =
      amended_target_delay 0.05 0.01 10 :=
  ⟨by decide, compute_target_delay_spec 0.05 0.01 10 _ (by decide)⟩

/-! ### C8 -/

/-- A concrete reader state with a pending seek request, unpaused. -/
noncomputable def cex_reader : ReaderState :=
  { audio_stream := 0, subtitle_stream := -1, video_stream := 1,
    audioq := packet_queue_start packet_queue_init,
    subtitleq := packet_queue_init,
    videoq := packet_queue_start packet_queue_init,
    audclk := cex_sync_slave, vidclk := cex_sync_slave, extclk := cex_sync_slave,
    frame_timer := 0, read_pause_return := 0,
    seek_req := true, seek_pos := 0, seek_rel := 0, seek_flags_byte := false,
    queue_attachments_req := false, eof := true, paused := false, step := 0 }

/-- C8 counterexample: when the container seek fails, the code still
consumes the request: seek_req goes from set to clear, so the pending-seek
flag is NOT as it was before the request was processed. -/
theorem handle_seek_claim_cex :
    (read_thread_loop_handle_seek cex_reader (-1) 0).seek_req ≠ cex_reader.seek_req := by
  norm_num [read_thread_loop_handle_seek, cex_reader]

/-- C8 (amended): when the container seek fails, the failure is only
logged: no PacketQueue is flushed, no flush sentinel is enqueued and the
external clock is not reset; but the request is consumed exactly as on
success: seek_req is cleared, queue_attachments_req is set, eof is cleared
and, when paused, a frame step is triggered. -/
theorem handle_seek_failure_spec (s : ReaderState) (ret : Int) (t : ℝ)
    (hreq : s.seek_req = true) (hret : ret < 0) :
    (s.paused = false →
      read_thread_loop_handle_seek s ret t =
        { s with seek_req := false, queue_attachments_req := true, eof := false }) ∧
    (s.paused = true →
      read_thread_loop_handle_seek s ret t =
        step_to_next_frame
          { s with seek_req := false, queue_attachments_req := true, eof := false } t) := by
  constructor
  · intro hp
    simp [read_thread_loop_handle_seek, hreq, hret, hp]
  · intro hp
    simp [read_thread_loop_handle_seek, hreq, hret, hp]

/-- C8 witness for the amended theorem at a concrete input. -/
theorem handle_seek_failure_spec_w :
    cex_reader.seek_req = true ∧ (-1 : Int) < 0 ∧
    (cex_reader.paused = false →
      read_thread_loop_handle_seek cex_reader (-1) 0 =
        { cex_reader with seek_req := false, queue_attachments_req := true, eof := false }) :=
  ⟨rfl, by decide, (handle_seek_failure_spec cex_reader (-1) 0 rfl (by decide)).1⟩

/-! ### C5 -/

/-- The EWMA coefficient exp(log(0.01)/20) is at most 0.99 (its 20th power
is 0.01 while 0.99 to the 20th is far larger). -/
theorem audio_coef_le : audio_diff_avg_coef_init ≤ 0.99 := by
  by_contra hgt
  push_neg at hgt
  have hpow : audio_diff_avg_coef_init ^ (20 : ℕ) = 0.01 := by
    unfold audio_diff_avg_coef_init
    rw [← Real.exp_nat_mul]
    have h20 : ((20 : ℕ) : ℝ) * (Real.log 0.01 / 20) = Real.log 0.01 := by
      push_cast
      ring
    rw [h20, Real.exp_log (by norm_num)]
  have hlt : (0.99 : ℝ) ^ (20 : ℕ) < audio_diff_avg_coef_init ^ (20 : ℕ) :=
    pow_lt_pow_left₀ hgt (by norm_num) (by norm_num)
  rw [hpow] at hlt
  norm_num at hlt

/-- The acting branch of synchronize_audio: not audio master, |diff| under
the no-sync threshold, warm-up complete, average over the hardware
threshold. -/
theorem synchronize_audio_act (st : AudioSyncState) (ss : SyncState) (d : ℝ) (n : Int)
    (hm : get_master_sync_type ss ≠ AVSyncType.audioMaster)
    (hd : |d| < AV_NOSYNC_THRESHOLD)
    (hc : ¬st.audio_diff_avg_count < AUDIO_DIFF_AVG_NB)
    (ha : |(d + st.audio_diff_avg_coef * st.audio_diff_cum) *
        (1 - st.audio_diff_avg_coef)| ≥ st.audio_diff_threshold) :
    (synchronize_audio st ss (some d) n).1 =
      av_clip (n + ctrunc (d * (st.audio_src_freq : ℝ)))
        (Int.tdiv (n * (100 - SAMPLE_CORRECTION_PERCENT_MAX)) 100)
        (Int.tdiv (n * (100 + SAMPLE_CORRECTION_PERCENT_MAX)) 100) := by
  simp only [synchronize_audio, if_pos hm, if_pos hd, if_neg hc, if_pos ha]

/-- The reset branch of synchronize_audio: |diff| at or above the no-sync
threshold clears the accumulator and the warm-up count and returns the
sample count unchanged. -/
theorem synchronize_audio_reset (st : AudioSyncState) (ss : SyncState) (d : ℝ) (n : Int)
    (hm : get_master_sync_type ss ≠ AVSyncType.audioMaster)
    (hd : ¬|d| < AV_NOSYNC_THRESHOLD) :
    synchronize_audio st ss (some d) n =
      (n, { st with audio_diff_cum := 0, audio_diff_avg_count := 0 }) := by
  simp only [synchronize_audio, if_pos hm, if_neg hd]

/-- The audio-sync state at the counterexample: warmed up (count 20), a
small hardware threshold, source rate 1000 Hz, empty accumulator, and the
EWMA coefficient the program installs. -/
noncomputable def stC5 : AudioSyncState :=
  { audio_diff_cum := 0, audio_diff_avg_coef := audio_diff_avg_coef_init,
    audio_diff_avg_count := 20, audio_diff_threshold := 0.001, audio_src_freq := 1000 }

/-- A sync state whose master is video (so audio is compensated). -/
def ssC5 : SyncState :=
  { av_sync_type := AVSyncType.videoMaster, video_st := true, audio_st := true }

/-- C5 counterexample: with diff 0.1006 s at 1000 Hz and 10000 input
samples, the code adds (int)(0.1006 * 1000) = 100 samples (C truncation
toward zero), returning 10100, while the claimed formula rounds 100.6 to
101 and yields 10101. -/
theorem synchronize_audio_claim_cex :
    (((synchronize_audio stC5 ssC5 (some 0.1006) 10000).1 : Int) : ℝ) ≠
      claimed_wanted_samples 0.1006 1000 10000 := by
  have hcoef0 : 0 < audio_diff_avg_coef_init := Real.exp_pos _
  have hcoef1 : audio_diff_avg_coef_init ≤ 0.99 := audio_coef_le
  have hm : get_master_sync_type ssC5 ≠ AVSyncType.audioMaster := by decide
  have havg : |((0.1006 : ℝ) + stC5.audio_diff_avg_coef * stC5.audio_diff_cum) *
      (1 - stC5.audio_diff_avg_coef)| ≥ stC5.audio_diff_threshold := by
    show |((0.1006 : ℝ) + audio_diff_avg_coef_init * 0) * (1 - audio_diff_avg_coef_init)| ≥
      (0.001 : ℝ)
    rw [mul_zero, add_zero, abs_of_nonneg (by nlinarith)]
    nlinarith
  have hfloor : ctrunc ((0.1006 : ℝ) * ((1000 : Int) : ℝ)) = 100 := by
    unfold ctrunc
    rw [if_pos (by norm_num)]
    have : (0.1006 : ℝ) * ((1000 : Int) : ℝ) = 100.6 := by norm_num
    rw [this]
    norm_num
  have hcode : (synchronize_audio stC5 ssC5 (some 0.1006) 10000).1 = 10100 := by
    rw [synchronize_audio_act stC5 ssC5 0.1006 10000 hm
      (by rw [abs_of_nonneg (by norm_num)]; norm_num [AV_NOSYNC_THRESHOLD]) (by decide) havg]
    show av_clip (10000 + ctrunc ((0.1006 : ℝ) * ((1000 : Int) : ℝ)))
        (Int.tdiv (10000 * (100 - SAMPLE_CORRECTION_PERCENT_MAX)) 100)
        (Int.tdiv (10000 * (100 + SAMPLE_CORRECTION_PERCENT_MAX)) 100) = 10100
    rw [hfloor]
    decide
  have hclaim : claimed_wanted_samples 0.1006 1000 10000 = 10101 := by
    unfold claimed_wanted_samples clipR
    have hr : round ((0.1006 : ℝ) * ((1000 : Int) : ℝ)) = 101 := by
      rw [round_eq]
      have : (0.1006 : ℝ) * ((1000 : Int) : ℝ) + 1 / 2 = 101.1 := by norm_num
      rw [this]
      norm_num
    rw [hr]
    rw [min_eq_right (by norm_num), max_eq_right (by norm_num)]
    norm_num
  rw [hcode, hclaim]
  norm_num

/-- C5 (amended): when audio is not the master, whenever |diff| exceeds
the 10 s no-sync threshold the accumulator and warm-up count are reset and
n is returned unchanged; and with |diff| inside the threshold, after the 20
warm-up measurements and with the weighted average at or above the hardware
threshold, the returned sample count is clip(n + trunc(diff * src_rate),
tdiv(n*90, 100), tdiv(n*110, 100)) with C truncation toward zero and C
integer division, not the rounded clip(.., 0.9 n, 1.1 n) of the claim. -/
theorem synchronize_audio_spec (st : AudioSyncState) (ss : SyncState) (d : ℝ) (n : Int)
    (hm : get_master_sync_type ss ≠ AVSyncType.audioMaster) :
    (|d| > AV_NOSYNC_THRESHOLD →
      synchronize_audio st ss (some d) n =
        (n, { st with audio_diff_cum := 0, audio_diff_avg_count := 0 })) ∧
    (|d| < AV_NOSYNC_THRESHOLD → AUDIO_DIFF_AVG_NB ≤ st.audio_diff_avg_count →
      st.audio_diff_threshold ≤
        |(d + st.audio_diff_avg_coef * st.audio_diff_cum) * (1 - st.audio_diff_avg_coef)| →
      (synchronize_audio st ss (some d) n).1 =
        av_clip (n + ctrunc (d * (st.audio_src_freq : ℝ)))
          (Int.tdiv (n * 90) 100) (Int.tdiv (n * 110) 100)) := by
  constructor
  · intro hgt
    exact synchronize_audio_reset st ss d n hm (by rw [not_lt]; linarith)
  · intro hd hc ha
    rw [synchronize_audio_act st ss d n hm hd (not_lt.mpr hc) ha]
    norm_num [SAMPLE_CORRECTION_PERCENT_MAX]

/-- The audio-sync state for the C5 witness: warmed up, zero coefficient
and threshold. -/
noncomputable def stW : AudioSyncState :=
  { audio_diff_cum := 0, audio_diff_avg_coef := 0,
    audio_diff_avg_count := 20, audio_diff_threshold := 0, audio_src_freq := 1000 }

/-- C5 witness for the amended theorem at a concrete input (the reset
clause at diff 25 s). -/
theorem synchronize_audio_spec_w :
    get_master_sync_type ssC5 ≠ AVSyncType.audioMaster ∧
    |(25 : ℝ)| > AV_NOSYNC_THRESHOLD ∧
    synchronize_audio stW ssC5 (some 25) 1000 =
      (1000, { stW with audio_diff_cum := 0, audio_diff_avg_count := 0 }) :=
  ⟨by decide, by rw [abs_of_nonneg (by norm_num)]; norm_num [AV_NOSYNC_THRESHOLD],
    (synchronize_audio_spec stW ssC5 25 1000 (by decide)).1
      (by rw [abs_of_nonneg (by norm_num)]; norm_num [AV_NOSYNC_THRESHOLD])⟩

/-! ### C10 -/

/-- av_clip keeps its result inside [lo, hi] when lo ≤ hi. -/
theorem av_clip_mem (x lo hi : Int) (h : lo ≤ hi) :
    lo ≤ av_clip x lo hi ∧ av_clip x lo hi ≤ hi := by
  unfold av_clip
  split_ifs <;> omega

/-- For a positive current volume, converting to dB, stepping and
converting back cancels the logarithm: the stepped volume is
round(v * 10 ^ (sign * step / 20)). -/
theorem update_volume_new_eq (v s : Int) (hv : 1 ≤ v) (step : ℝ) :
    update_volume_new v s step =
      round ((v : ℝ) * (10 : ℝ) ^ ((s : ℝ) * step / 20)) := by
  have hvne : v ≠ 0 := by omega
  simp only [update_volume_new, SDL_MIX_MAXVOLUME, if_pos hvne]
  congr 1
  have hv0 : (0 : ℝ) < (v : ℝ) / ((128 : Int) : ℝ) := by
    have : (0 : ℝ) < (v : ℝ) := by exact_mod_cast (by omega : (0 : Int) < v)
    positivity
  have hexp : (20 * Real.log ((v : ℝ) / ((128 : Int) : ℝ)) / Real.log 10 + (s : ℝ) * step) / 20
      = Real.logb 10 ((v : ℝ) / ((128 : Int) : ℝ)) + (s : ℝ) * step / 20 := by
    simp only [Real.logb]
    ring
  rw [hexp, Real.rpow_add (by norm_num), Real.rpow_logb (by norm_num) (by norm_num) hv0]
  push_cast
  ring

/-- Stepping up by 0.75 dB never rounds below the current volume. -/
theorem update_volume_new_ge (v : Int) (hv : 1 ≤ v) :
    v ≤ update_volume_new v 1 SDL_VOLUME_STEP := by
  rw [update_volume_new_eq v 1 hv]
  have hc : (1 : ℝ) < (10 : ℝ) ^ (((1 : Int) : ℝ) * SDL_VOLUME_STEP / 20) := by
    rw [Real.one_lt_rpow_iff_of_pos (by norm_num)]
    left
    refine ⟨by norm_num, ?_⟩
    simp only [SDL_VOLUME_STEP]
    norm_num
  have hvR : (0 : ℝ) < (v : ℝ) := by exact_mod_cast (by omega : (0 : Int) < v)
  have hle : (v : ℝ) ≤ (v : ℝ) * (10 : ℝ) ^ (((1 : Int) : ℝ) * SDL_VOLUME_STEP / 20) :=
    le_mul_of_one_le_right hvR.le hc.le
  rw [round_eq, Int.le_floor]
  push_cast
  push_cast at hle
  linarith

/-- Stepping down by 0.75 dB never rounds above the current volume. -/
theorem update_volume_new_le (v : Int) (hv : 1 ≤ v) :
    update_volume_new v (-1) SDL_VOLUME_STEP ≤ v := by
  rw [update_volume_new_eq v (-1) hv]
  have hc : (10 : ℝ) ^ (((-1 : Int) : ℝ) * SDL_VOLUME_STEP / 20) < 1 := by
    apply Real.rpow_lt_one_of_one_lt_of_neg (by norm_num)
    simp only [SDL_VOLUME_STEP]
    norm_num
  have hvR : (0 : ℝ) < (v : ℝ) := by exact_mod_cast (by omega : (0 : Int) < v)
  have hlt : (v : ℝ) * (10 : ℝ) ^ (((-1 : Int) : ℝ) * SDL_VOLUME_STEP / 20) < (v : ℝ) :=
    mul_lt_of_lt_one_right hvR hc
  rw [round_eq]
  have hfl : ⌊(v : ℝ) * (10 : ℝ) ^ (((-1 : Int) : ℝ) * SDL_VOLUME_STEP / 20) + 1 / 2⌋
      < v + 1 := by
    apply Int.floor_lt.mpr
    push_cast
    push_cast at hlt
    linarith
  omega

/-- C10: update_volume with the 0.75 dB step clips its result to
[0, SDL_MIX_MAXVOLUME]; when the logarithmic step rounds back to the
current volume the volume is nudged by sign before clipping; and for every
volume strictly between 0 and the maximum a key press strictly changes the
volume, increasing for sign +1 and decreasing for sign -1. -/
theorem update_volume_spec (v sign : Int) (hv0 : 0 ≤ v) (hv1 : v ≤ SDL_MIX_MAXVOLUME)
    (hs : sign = 1 ∨ sign = -1) :
    (0 ≤ update_volume v sign SDL_VOLUME_STEP ∧
      update_volume v sign SDL_VOLUME_STEP ≤ SDL_MIX_MAXVOLUME) ∧
    (update_volume_new v sign SDL_VOLUME_STEP = v →
      update_volume v sign SDL_VOLUME_STEP = av_clip (v + sign) 0 SDL_MIX_MAXVOLUME) ∧
    (1 ≤ v → v ≤ SDL_MIX_MAXVOLUME - 1 →
      (sign = 1 → v < update_volume v sign SDL_VOLUME_STEP) ∧
      (sign = -1 → update_volume v sign SDL_VOLUME_STEP < v)) := by
  refine ⟨?_, ?_, ?_⟩
  · exact av_clip_mem _ 0 SDL_MIX_MAXVOLUME (by decide)
  · intro h
    simp only [update_volume, if_pos h.symm]
  · intro h1 h2
    simp only [SDL_MIX_MAXVOLUME] at h2
    constructor
    · rintro rfl
      have hge := update_volume_new_ge v h1
      by_cases heq : v = update_volume_new v 1 SDL_VOLUME_STEP
      · simp only [update_volume, if_pos heq, av_clip, SDL_MIX_MAXVOLUME]
        split_ifs <;> omega
      · simp only [update_volume, if_neg heq, av_clip, SDL_MIX_MAXVOLUME]
        split_ifs <;> omega
    · rintro rfl
      have hle := update_volume_new_le v h1
      by_cases heq : v = update_volume_new v (-1) SDL_VOLUME_STEP
      · simp only [update_volume, if_pos heq, av_clip, SDL_MIX_MAXVOLUME]
        split_ifs <;> omega
      · simp only [update_volume, if_neg heq, av_clip, SDL_MIX_MAXVOLUME]
        split_ifs <;> omega

/-- C10 witness at the concrete volume 64, stepping up. -/
theorem update_volume_spec_w :
    ((0 : Int) ≤ 64 ∧ (64 : Int) ≤ SDL_MIX_MAXVOLUME ∧ ((1 : Int) = 1 ∨ (1 : Int) = -1)) ∧
    (0 ≤ update_volume 64 1 SDL_VOLUME_STEP ∧
      update_volume 64 1 SDL_VOLUME_STEP ≤ SDL_MIX_MAXVOLUME) :=
  ⟨⟨by decide, by decide, Or.inl rfl⟩,
    (update_volume_spec 64 1 (by decide) (by decide) (Or.inl rfl)).1⟩

/-! ### C1: helper lemmas on queue traces -/

/-- No queue operation changes the abort flag. -/
theorem pq_qstep_abort (q : PacketQueue) (op : PQOp) :
    (pq_qstep q op).abort_request = q.abort_request := by
  cases op with
  | put p =>
      simp only [pq_qstep, packet_queue_put, packet_queue_put_private]
      by_cases h : q.abort_request <;> simp [h]
  | get =>
      simp only [pq_qstep, packet_queue_get]
      by_cases h : q.abort_request
      · simp [h]
      · cases hp : q.pkts <;> simp [h, hp]
  | flush => rfl

/-- No queue operation decreases the serial. -/
theorem pq_qstep_serial_le (q : PacketQueue) (op : PQOp) :
    q.serial ≤ (pq_qstep q op).serial := by
  cases op with
  | put p =>
      simp only [pq_qstep, packet_queue_put, packet_queue_put_private]
      by_cases h : q.abort_request
      · simp [h]
      · by_cases hf : p.isFlush <;> simp [h, hf]
  | get =>
      simp only [pq_qstep, packet_queue_get]
      by_cases h : q.abort_request
      · simp [h]
      · cases hp : q.pkts <;> simp [h, hp]
  | flush => exact le_refl _

/-- Running a trace does not change the abort flag. -/
theorem pq_qrun_abort (ops : List PQOp) (q : PacketQueue) :
    (pq_qrun q ops).abort_request = q.abort_request := by
  induction ops generalizing q with
  | nil => rfl
  | cons op ops ih => rw [pq_qrun, ih, pq_qstep_abort]

/-- Running a trace does not decrease the serial. -/
theorem pq_qrun_serial_le (ops : List PQOp) (q : PacketQueue) :
    q.serial ≤ (pq_qrun q ops).serial := by
  induction ops generalizing q with
  | nil => exact le_refl _
  | cons op ops ih => exact le_trans (pq_qstep_serial_le q op) (ih _)

/-- Traces compose. -/
theorem pq_qrun_append (l1 l2 : List PQOp) (q : PacketQueue) :
    pq_qrun q (l1 ++ l2) = pq_qrun (pq_qrun q l1) l2 := by
  induction l1 generalizing q with
  | nil => rfl
  | cons op ops ih => rw [List.cons_append, pq_qrun, pq_qrun, ih]

/-- A successful non-aborted put bumps the serial by one exactly for the
flush sentinel. -/
theorem pq_put_serial (q : PacketQueue) (p : PQPacket) (h : q.abort_request = false) :
    (packet_queue_put q p).2.serial = q.serial + (if p.isFlush then 1 else 0) := by
  simp only [packet_queue_put, packet_queue_put_private, h]
  by_cases hf : p.isFlush <;> simp [hf]

/-- On a non-aborted queue, the serial after a trace is the initial serial
plus the number of flush sentinels the trace put. -/
theorem pq_qrun_serial_eq (ops : List PQOp) (q : PacketQueue)
    (h : q.abort_request = false) :
    (pq_qrun q ops).serial = q.serial + numFlushPuts ops := by
  induction ops generalizing q with
  | nil => simp [pq_qrun, numFlushPuts]
  | cons op ops ih =>
      cases op with
      | put p =>
          have hstep : (pq_qstep q (.put p)).abort_request = false := by
            rw [pq_qstep_abort]
            exact h
          rw [pq_qrun, ih _ hstep]
          show (packet_queue_put q p).2.serial + numFlushPuts ops = _
          rw [pq_put_serial q p h, numFlushPuts]
          ring
      | get =>
          have hstep : (pq_qstep q .get).abort_request = false := by
            rw [pq_qstep_abort]
            exact h
          have hser : (pq_qstep q .get).serial = q.serial := by
            simp only [pq_qstep, packet_queue_get, h]
            cases hp : q.pkts <;> simp [hp]
          rw [pq_qrun, ih _ hstep, hser, numFlushPuts]
      | flush =>
          have hstep : (pq_qstep q .flush).abort_request = false := by
            rw [pq_qstep_abort]
            exact h
          rw [pq_qrun, ih _ hstep]
          rfl

/-- Every serial a trace stamps is at most the final queue serial. -/
theorem stampsOf_le (ops : List PQOp) (q : PacketQueue) :
    ∀ x ∈ stampsOf q ops, x ≤ (pq_qrun q ops).serial := by
  induction ops generalizing q with
  | nil => simp [stampsOf]
  | cons op ops ih =>
      cases op with
      | put p =>
          intro x hx
          rw [stampsOf] at hx
          rw [pq_qrun]
          rcases List.mem_append.mp hx with hx1 | hx2
          · have hx3 : x = (packet_queue_put q p).2.serial := by
              by_cases hr : (packet_queue_put q p).1 = 0 <;> simp [hr] at hx1
              · exact hx1
            rw [hx3]
            exact pq_qrun_serial_le ops _
          · exact ih _ x hx2
      | get =>
          intro x hx
          rw [stampsOf] at hx
          rw [pq_qrun]
          exact ih _ x hx
      | flush =>
          intro x hx
          rw [stampsOf] at hx
          rw [pq_qrun]
          exact ih _ x hx

/-- Every serial a trace stamps is at least the initial queue serial. -/
theorem stampsOf_ge (ops : List PQOp) (q : PacketQueue) :
    ∀ x ∈ stampsOf q ops, q.serial ≤ x := by
  induction ops generalizing q with
  | nil => simp [stampsOf]
  | cons op ops ih =>
      cases op with
      | put p =>
          intro x hx
          rw [stampsOf] at hx
          rcases List.mem_append.mp hx with hx1 | hx2
          · have hx3 : x = (packet_queue_put q p).2.serial := by
              by_cases hr : (packet_queue_put q p).1 = 0 <;> simp [hr] at hx1
              · exact hx1
            rw [hx3]
            exact pq_qstep_serial_le q (.put p)
          · exact le_trans (pq_qstep_serial_le q (.put p)) (ih _ x hx2)
      | get =>
          intro x hx
          rw [stampsOf] at hx
          exact le_trans (pq_qstep_serial_le q .get) (ih _ x hx)
      | flush =>
          intro x hx
          rw [stampsOf] at hx
          exact le_trans (pq_qstep_serial_le q .flush) (ih _ x hx)

/-- The central trace invariant: starting from a non-aborted queue whose
stored serials are sorted and bounded by the queue serial, the delivered
serials followed by the remaining stored serials stay sorted, the bound is
kept, and any lower bound on the stored serials and the queue serial bounds
everything delivered or stored later. -/
theorem pq_run_sorted (ops : List PQOp) (q : PacketQueue)
    (ha : q.abort_request = false)
    (hs : List.Sorted (· ≤ ·) (q.pkts.map MyAVPacketList.serial))
    (hb : ∀ e ∈ q.pkts, e.serial ≤ q.serial) :
    List.Sorted (· ≤ ·)
        (deliveredOf q ops ++ (pq_qrun q ops).pkts.map MyAVPacketList.serial) ∧
    (∀ e ∈ (pq_qrun q ops).pkts, e.serial ≤ (pq_qrun q ops).serial) ∧
    (∀ lb : Int, (∀ e ∈ q.pkts, lb ≤ e.serial) → lb ≤ q.serial →
      ∀ x ∈ deliveredOf q ops ++ (pq_qrun q ops).pkts.map MyAVPacketList.serial, lb ≤ x) := by
  induction ops generalizing q with
  | nil =>
      refine ⟨by simpa [deliveredOf, pq_qrun] using hs, by simpa [pq_qrun] using hb, ?_⟩
      intro lb h1 _ x hx
      simp only [deliveredOf, pq_qrun, List.nil_append, List.mem_map] at hx
      obtain ⟨e, he, rfl⟩ := hx
      exact h1 e he
  | cons op ops ih =>
      cases op with
      | put p =>
          have ha2 : (pq_qstep q (.put p)).abort_request = false := by
            rw [pq_qstep_abort]
            exact ha
          have hse : q.serial ≤ (pq_qstep q (.put p)).serial := pq_qstep_serial_le q (.put p)
          have hpk : (pq_qstep q (.put p)).pkts =
              q.pkts ++ [{ pkt := p, serial := (pq_qstep q (.put p)).serial }] := by
            simp only [pq_qstep, packet_queue_put, packet_queue_put_private, ha]
            by_cases hf : p.isFlush <;> simp [hf]
          have hs2 : List.Sorted (· ≤ ·)
              ((pq_qstep q (.put p)).pkts.map MyAVPacketList.serial) := by
            rw [hpk, List.map_append]
            refine List.pairwise_append.mpr ⟨hs, by simp, ?_⟩
            intro a hha b hhb
            simp only [List.map_cons, List.map_nil, List.mem_singleton] at hhb
            subst hhb
            simp only [List.mem_map] at hha
            obtain ⟨e, he, rfl⟩ := hha
            exact le_trans (hb e he) hse
          have hb2 : ∀ e ∈ (pq_qstep q (.put p)).pkts,
              e.serial ≤ (pq_qstep q (.put p)).serial := by
            rw [hpk]
            intro e he
            rcases List.mem_append.mp he with he1 | he2
            · exact le_trans (hb e he1) hse
            · simp only [List.mem_singleton] at he2
              subst he2
              exact le_refl _
          obtain ⟨S, B, L⟩ := ih (pq_qstep q (.put p)) ha2 hs2 hb2
          have hde : deliveredOf q (.put p :: ops) = deliveredOf (pq_qstep q (.put p)) ops :=
            rfl
          have hru : pq_qrun q (.put p :: ops) = pq_qrun (pq_qstep q (.put p)) ops := rfl
          refine ⟨by rw [hde, hru]; exact S, by rw [hru]; exact B, ?_⟩
          intro lb h1 h2 x hx
          rw [hde, hru] at hx
          refine L lb ?_ (le_trans h2 hse) x hx
          rw [hpk]
          intro e he
          rcases List.mem_append.mp he with he1 | he2
          · exact h1 e he1
          · simp only [List.mem_singleton] at he2
            subst he2
            exact le_trans h2 hse
      | get =>
          have hsplit : q.pkts = [] ∨ ∃ e rest, q.pkts = e :: rest := by
            cases q.pkts with
            | nil => exact Or.inl rfl
            | cons a l => exact Or.inr ⟨a, l, rfl⟩
          rcases hsplit with hp | ⟨e, rest, hp⟩
          · have hg : packet_queue_get q = PQGetResult.empty := by
              simp [packet_queue_get, ha, hp]
            have hq2 : pq_qstep q .get = q := by
              simp [pq_qstep, hg]
            have hde : deliveredOf q (.get :: ops) = deliveredOf q ops := by
              simp only [deliveredOf, hg]
            have hru : pq_qrun q (.get :: ops) = pq_qrun q ops := by
              simp only [pq_qrun, hq2]
            obtain ⟨S, B, L⟩ := ih q ha hs hb
            refine ⟨by rw [hde, hru]; exact S, by rw [hru]; exact B, ?_⟩
            intro lb h1 h2 x hx
            rw [hde, hru] at hx
            exact L lb h1 h2 x hx
          · have hq2p : (pq_qstep q .get).pkts = rest := by
              simp [pq_qstep, packet_queue_get, ha, hp]
            have hq2s : (pq_qstep q .get).serial = q.serial := by
              simp [pq_qstep, packet_queue_get, ha, hp]
            have ha2 : (pq_qstep q .get).abort_request = false := by
              rw [pq_qstep_abort]
              exact ha
            have hsc : List.Sorted (· ≤ ·) (e.serial :: rest.map MyAVPacketList.serial) := by
              have h3 := hs
              rw [hp, List.map_cons] at h3
              exact h3
            have hs2 : List.Sorted (· ≤ ·)
                ((pq_qstep q .get).pkts.map MyAVPacketList.serial) := by
              rw [hq2p]
              exact (List.sorted_cons.mp hsc).2
            have hb2 : ∀ e2 ∈ (pq_qstep q .get).pkts,
                e2.serial ≤ (pq_qstep q .get).serial := by
              rw [hq2p, hq2s]
              intro e2 he2
              exact hb e2 (by rw [hp]; exact List.mem_cons_of_mem e he2)
            obtain ⟨S, B, L⟩ := ih (pq_qstep q .get) ha2 hs2 hb2
            have hde : deliveredOf q (.get :: ops) =
                e.serial :: deliveredOf (pq_qstep q .get) ops := by
              simp [deliveredOf, pq_qstep, packet_queue_get, ha, hp]
            have hru : pq_qrun q (.get :: ops) = pq_qrun (pq_qstep q .get) ops := rfl
            have hball : ∀ b ∈ deliveredOf (pq_qstep q .get) ops ++
                (pq_qrun (pq_qstep q .get) ops).pkts.map MyAVPacketList.serial,
                e.serial ≤ b := by
              refine L e.serial ?_ ?_
              · rw [hq2p]
                intro e2 he2
                have h4 := (List.sorted_cons.mp hsc).1
                exact h4 e2.serial (List.mem_map_of_mem MyAVPacketList.serial he2)
              · rw [hq2s]
                exact hb e (by rw [hp]; exact List.mem_cons_self e rest)
            refine ⟨?_, by rw [hru]; exact B, ?_⟩
            · rw [hde, hru, List.cons_append]
              exact List.sorted_cons.mpr ⟨hball, S⟩
            · intro lb h1 h2 x hx
              rw [hde, hru, List.cons_append] at hx
              rcases List.mem_cons.mp hx with hx1 | hx2
              · subst hx1
                exact h1 e (by rw [hp]; exact List.mem_cons_self e rest)
              · refine L lb ?_ ?_ x hx2
                · rw [hq2p]
                  intro e2 he2
                  exact h1 e2 (by rw [hp]; exact List.mem_cons_of_mem e he2)
                · rw [hq2s]
                  exact h2
      | flush =>
          have hq2 : pq_qstep q .flush = packet_queue_flush q := rfl
          have ha2 : (packet_queue_flush q).abort_request = false := ha
          have hs2 : List.Sorted (· ≤ ·)
              ((packet_queue_flush q).pkts.map MyAVPacketList.serial) := by
            simp [packet_queue_flush]
          have hb2 : ∀ e ∈ (packet_queue_flush q).pkts,
              e.serial ≤ (packet_queue_flush q).serial := by
            simp [packet_queue_flush]
          obtain ⟨S, B, L⟩ := ih (packet_queue_flush q) ha2 hs2 hb2
          have hde : deliveredOf q (.flush :: ops) = deliveredOf (packet_queue_flush q) ops :=
            rfl
          have hru : pq_qrun q (.flush :: ops) = pq_qrun (packet_queue_flush q) ops := rfl
          refine ⟨by rw [hde, hru]; exact S, by rw [hru]; exact B, ?_⟩
          intro lb h1 h2 x hx
          rw [hde, hru] at hx
          refine L lb ?_ h2 x hx
          simp [packet_queue_flush]

/-- C1: on a non-aborted PacketQueue whose stored serials are sorted and
bounded by its serial counter: a put stamps the flush sentinel with the
serial incremented first and every other packet with the serial current at
enqueue time; after the K flush sentinels of a trace enter the queue its
serial equals initial + K; the serials of the delivered packets never
decrease (no packet stamped with a lower serial is delivered afterward);
and every packet stamped after a flush sentinel carries a strictly higher
serial than every packet stamped before it. -/
theorem packet_queue_serial_invariant (q0 : PacketQueue) (ops ops1 ops2 : List PQOp)
    (h0 : q0.abort_request = false)
    (hs : List.Sorted (· ≤ ·) (q0.pkts.map MyAVPacketList.serial))
    (hb : ∀ e ∈ q0.pkts, e.serial ≤ q0.serial) :
    (∀ p : PQPacket,
      ((packet_queue_put_private q0 p).2.pkts.map MyAVPacketList.serial).getLast? =
        some (if p.isFlush then q0.serial + 1 else q0.serial)) ∧
    (pq_qrun q0 ops).serial = q0.serial + numFlushPuts ops ∧
    List.Sorted (· ≤ ·) (deliveredOf q0 ops) ∧
    (∀ x ∈ stampsOf q0 ops1,
      ∀ y ∈ stampsOf (pq_qrun q0 (ops1 ++ [PQOp.put flush_pkt])) ops2, x < y) := by
  refine ⟨?_, pq_qrun_serial_eq ops q0 h0, ?_, ?_⟩
  · intro p
    simp only [packet_queue_put_private, h0]
    by_cases hf : p.isFlush <;>
      simp [hf, List.map_append, List.getLast?_concat]
  · have hcat := (pq_run_sorted ops q0 h0 hs hb).1
    exact List.Pairwise.sublist (List.sublist_append_left _ _) hcat
  · intro x hx y hy
    have hx1 : x ≤ (pq_qrun q0 ops1).serial := stampsOf_le ops1 q0 x hx
    have habort : (pq_qrun q0 ops1).abort_request = false := by
      rw [pq_qrun_abort]
      exact h0
    have hser : (pq_qrun q0 (ops1 ++ [PQOp.put flush_pkt])).serial =
        (pq_qrun q0 ops1).serial + 1 := by
      rw [pq_qrun_append]
      show (packet_queue_put (pq_qrun q0 ops1) flush_pkt).2.serial = _
      rw [pq_put_serial _ _ habort]
      simp [flush_pkt]
    have hy1 : (pq_qrun q0 (ops1 ++ [PQOp.put flush_pkt])).serial ≤ y :=
      stampsOf_ge ops2 _ y hy
    omega

/-- A concrete normal packet for the C1 witness trace. -/
def pktW : PQPacket := { isFlush := false, size := 100, duration := 10, stream_index := 0 }

/-- The C1 witness trace: put a normal packet, put a flush sentinel, get. -/
def opsW : List PQOp := [PQOp.put pktW, PQOp.put flush_pkt, PQOp.get]

/-- C1 witness: the invariant instantiated on a freshly started queue and
the concrete trace opsW, with a one-put prefix and suffix around a flush. -/
theorem packet_queue_serial_invariant_w :
    ((packet_queue_start packet_queue_init).abort_request = false ∧
      List.Sorted (· ≤ ·)
        ((packet_queue_start packet_queue_init).pkts.map MyAVPacketList.serial)) ∧
    ((pq_qrun (packet_queue_start packet_queue_init) opsW).serial =
        (packet_queue_start packet_queue_init).serial + numFlushPuts opsW ∧
      List.Sorted (· ≤ ·) (deliveredOf (packet_queue_start packet_queue_init) opsW)) :=
  ⟨⟨by decide, by decide⟩,
    ⟨(packet_queue_serial_invariant (packet_queue_start packet_queue_init) opsW
        [PQOp.put pktW] [PQOp.put pktW] (by decide) (by decide) (by decide)).2.1,
     (packet_queue_serial_invariant (packet_queue_start packet_queue_init) opsW
        [PQOp.put pktW] [PQOp.put pktW] (by decide) (by decide) (by decide)).2.2.1⟩⟩

end FFPlayer
